import Mathlib

/-!
Shallow embedding of `src/app.py` (universal_downloader): the in-memory job
registry `DOWNLOAD_JOBS`, the yt-dlp progress hook `progress_hook_for`, the
worker lifecycle `download_worker`, cooperative cancellation, and the
HTTP-facing operations `start_download` / `cancel_download` /
`cleanup_old_jobs`.

Modelling conventions:
* Python floats are modelled as rationals (`ℚ`), Python ints as `Int`,
  `None` as `Option.none`.
* Python truthiness (`x or y` chains, `if x:`) is made explicit: `0`, `""`,
  `None` and `[]` are falsy.
* Filesystem and network side effects (the actual media download, zip file
  contents on disk) are outside the job-record state and are not modelled;
  only the values written into the job record are.
* `float()` parsing is modelled for ordinary decimal literals with optional
  sign, fraction and exponent; `inf`/`nan` and digit-group underscores are
  not modelled (they never arise from yt-dlp percent strings).
-/

attribute [local semireducible] Rat.mul Rat.inv Rat.add Rat.sub Rat.ofScientific

namespace UniversalDownloader

/-- Python `s.strip()` on a character list (ASCII whitespace). -/
def pyStripList (cs : List Char) : List Char :=
  ((cs.dropWhile (fun c => c.isWhitespace)).reverse.dropWhile
    (fun c => c.isWhitespace)).reverse

/-- Python `s.strip()`. -/
def pyStrip (s : String) : String := String.mk (pyStripList s.data)

/-- Python `s.lower()` (ASCII). -/
def pyLower (s : String) : String := String.mk (s.data.map Char.toLower)

/-- Character-list prefix test. -/
def listHasPrefix : List Char → List Char → Bool
  | [], _ => true
  | _ :: _, [] => false
  | p :: ps, c :: cs => p == c && listHasPrefix ps cs

/-- Character-list substring test, as Python `pat in s`. -/
def listHasSubstr (pat : List Char) : List Char → Bool
  | [] => pat.isEmpty
  | c :: cs => listHasPrefix pat (c :: cs) || listHasSubstr pat cs

/-- The `status` values stored in a job record by `app.py`. -/
inductive Status
  | queued | starting | downloading | processing
  | completed | error | cancelling | cancelled
deriving DecidableEq, Repr

/-- Statuses treated as final by `cancel_download` (line 299 of `app.py`). -/
def terminalStatus : Status → Bool
  | .completed | .error | .cancelled => true
  | _ => false

/-- Statuses a record can have while its worker is between its first write and
its finalization. -/
def activeStatus : Status → Bool
  | .starting | .downloading | .processing | .cancelling => true
  | _ => false

/-- One job record of `DOWNLOAD_JOBS`.  Keys that `app.py` only adds later
(`cancel`, `downloaded_bytes`, `total_bytes`, `speed`, `eta`) are modelled with
their `dict.get` default (`False` resp. `None`). -/
structure Job where
  id : String
  url : String
  quality : String
  download_type : String
  status : Status
  progress : ℚ
  filename : Option String
  error : Option String
  cancel : Bool
  downloaded_bytes : Option Int
  total_bytes : Option Int
  speed : Option ℚ
  eta : Option ℚ
  created_at : ℚ
deriving DecidableEq, Repr

/-- One progress event `d` passed by yt-dlp to the hook; every field is read
with `d.get(...)`, hence optional. -/
structure HookEvent where
  status : Option String
  downloaded_bytes : Option Int
  total_bytes : Option Int
  total_bytes_estimate : Option Int
  _percent_str : Option String
  speed : Option ℚ
  eta : Option ℚ
  playlist_index : Option Int
  playlist_count : Option Int
deriving DecidableEq, Repr

/-- Python truthiness of an optional int: `None` and `0` are falsy. -/
def optIntTruthy : Option Int → Option Int
  | none => none
  | some n => if n = 0 then none else some n

/-- Python `a or dflt` for an optional string, where `None` and `""` are
falsy. -/
def pyOrStrO (a : Option String) (dflt : String) : String :=
  match a with
  | none => dflt
  | some s => if s = "" then dflt else s

/-- Accumulate a decimal digit list into a natural number. -/
def digitsToNat (acc : Nat) : List Char → Nat
  | [] => acc
  | c :: cs => digitsToNat (acc * 10 + (c.toNat - 48)) cs

/-- All characters are decimal digits. -/
def allDigits (cs : List Char) : Bool := cs.all (fun c => c.isDigit)

/-- Parse the optionally signed integer exponent of a float literal. -/
def parseExpInt (cs : List Char) : Option Int :=
  match cs with
  | '+' :: rest =>
      if !rest.isEmpty && allDigits rest then some (digitsToNat 0 rest : Int) else none
  | '-' :: rest =>
      if !rest.isEmpty && allDigits rest then some (-(digitsToNat 0 rest : Int)) else none
  | _ =>
      if !cs.isEmpty && allDigits cs then some (digitsToNat 0 cs : Int) else none

/-- Parse the mantissa of a float literal: digits with an optional decimal
point, at least one digit overall. -/
def parseMantissa (cs : List Char) : Option ℚ :=
  let intPart := cs.takeWhile (fun c => c.isDigit)
  let rest := cs.dropWhile (fun c => c.isDigit)
  match rest with
  | [] => if intPart.isEmpty then none else some (digitsToNat 0 intPart : ℚ)
  | '.' :: frac =>
      if allDigits frac && !(intPart.isEmpty && frac.isEmpty) then
        some ((digitsToNat 0 intPart : ℚ) + (digitsToNat 0 frac : ℚ) / (10 : ℚ) ^ frac.length)
      else none
  | _ => none

/-- Split a float literal at its first `e`/`E`, if any. -/
def splitOnExp : List Char → List Char × Option (List Char)
  | [] => ([], none)
  | c :: cs =>
      if (c == 'e') || (c == 'E') then ([], some cs)
      else
        let p := splitOnExp cs
        (c :: p.1, p.2)

/-- Parse an unsigned Python float literal. -/
def parseUnsignedPyFloat (cs : List Char) : Option ℚ :=
  let p := splitOnExp cs
  match parseMantissa p.1, p.2 with
  | some m, none => some m
  | some m, some ecs =>
      match parseExpInt ecs with
      | some e => some (m * (10 : ℚ) ^ e)
      | none => none
  | none, _ => none

/-- Python `float(s)` on a decimal string, returning `none` where `float`
raises `ValueError`.  (`float` itself ignores surrounding whitespace.) -/
def parsePyFloat (s : String) : Option ℚ :=
  match pyStripList s.data with
  | '+' :: rest => parseUnsignedPyFloat rest
  | '-' :: rest => (parseUnsignedPyFloat rest).map (fun q => -q)
  | cs => parseUnsignedPyFloat cs

/-- Python `s.rstrip("%")`. -/
def rstripPercent (s : String) : String :=
  String.mk ((s.data.reverse.dropWhile (fun c => c == '%')).reverse)

/-- Round-half-even of a rational to an integer, as Python `round` on exact
values. -/
def roundHalfEven (x : ℚ) : ℤ :=
  if x - ⌊x⌋ < 1 / 2 then ⌊x⌋
  else if 1 / 2 < x - ⌊x⌋ then ⌊x⌋ + 1
  else if ⌊x⌋ % 2 = 0 then ⌊x⌋ else ⌊x⌋ + 1

/-- Python `round(x, 2)` on an exact value. -/
def round2 (x : ℚ) : ℚ := (roundHalfEven (x * 100) : ℚ) / 100

/-- The clamp `min(max(x, 0.0), 100.0)` of line 130. -/
def clampQ (x : ℚ) : ℚ := min (max x 0) 100

/-- The hook's `downloaded = d.get("downloaded_bytes") or 0` (line 95). -/
def eventDownloaded (d : HookEvent) : Int :=
  (optIntTruthy d.downloaded_bytes).getD 0

/-- The hook's
`total = d.get("total_bytes") or d.get("total_bytes_estimate") or 0`
(line 96). -/
def eventTotal (d : HookEvent) : Int :=
  match optIntTruthy d.total_bytes with
  | some t => t
  | none => (optIntTruthy d.total_bytes_estimate).getD 0

/-- The local `percent` computed at lines 104-114: byte ratio when a total is
known, otherwise the parsed `_percent_str` falling back to `0.0` when absent,
empty, or unparseable. -/
def itemPercent (d : HookEvent) : ℚ :=
  if eventTotal d ≠ 0 then
    (eventDownloaded d : ℚ) / (eventTotal d : ℚ) * 100
  else
    match d._percent_str with
    | some s => if s ≠ "" then (parsePyFloat (rstripPercent (pyStrip s))).getD 0 else 0
    | none => 0

/-- The local `overall` computed at lines 116-127: playlist-aware when both
`playlist_index` and `playlist_count` are present and truthy.  The
`except Exception` guard around the arithmetic is unreachable for integer
inputs (no conversion or zero-division can fail) and is therefore not
modelled. -/
def overallPercent (d : HookEvent) : ℚ :=
  match optIntTruthy d.playlist_index, optIntTruthy d.playlist_count with
  | some i, some n => (((i : ℚ) - 1) + itemPercent d / 100) / (max (n : ℚ) 1) * 100
  | _, _ => itemPercent d

/-- The writes the hook performs on the record once past the cancellation
check (lines 93-133). -/
def hookUpdate (j : Job) (d : HookEvent) : Job :=
  if d.status = some "downloading" then
    { j with
      downloaded_bytes := some (eventDownloaded d)
      total_bytes := if eventTotal d ≠ 0 then some (eventTotal d) else none
      speed := d.speed
      eta := d.eta
      status := .downloading
      progress := round2 (clampQ (overallPercent d)) }
  else if d.status = some "finished" then
    { j with status := .processing }
  else
    j

/-- Result of one hook invocation on a present record: either the
`DownloadCancelled` signal was raised (before any write), or the record was
updated. -/
inductive HookResult
  | raised
  | ok (j : Job)
deriving DecidableEq, Repr

/-- The body of `progress_hook_for(job_id)`'s `hook` for a record found in the
registry (lines 84-135): raise on the cancel flag, otherwise update. -/
def hook (j : Job) (d : HookEvent) : HookResult :=
  if j.cancel then .raised else .ok (hookUpdate j d)

/-- The normalized value the hook writes for a `downloading` event. -/
def progressOf (d : HookEvent) : ℚ := round2 (clampQ (overallPercent d))

/-- Python `os.path.basename` for POSIX paths: the part after the last `/`. -/
def os_path_basename (s : String) : String :=
  String.mk ((s.data.reverse.takeWhile (fun c => c != '/')).reverse)

/-- Characters replaced by `sanitize_filename`'s first regex
`[\\/:*?"<>|]+`. -/
def badFilenameChar (c : Char) : Bool :=
  c == '\\' || c == '/' || c == ':' || c == '*' || c == '?' || c == '"' ||
    c == '<' || c == '>' || c == '|'

/-- Replace every maximal run of characters satisfying `p` by the single
character `r` (the effect of `re.sub(pattern+, r, s)` for a character
class). -/
def collapseRuns (p : Char → Bool) (r : Char) : Bool → List Char → List Char
  | _, [] => []
  | inRun, c :: cs =>
      if p c then
        if inRun then collapseRuns p r true cs
        else r :: collapseRuns p r true cs
      else c :: collapseRuns p r false cs

/-- `sanitize_filename` of `app.py` (lines 33-39): empty input gives
`"download"`, unsafe characters collapse to `_`, whitespace runs collapse to a
single space, the result is stripped, and an empty result falls back to
`"download"`. -/
def sanitize_filename (name : String) : String :=
  if name = "" then "download"
  else
    let step1 := collapseRuns badFilenameChar '_' false name.data
    let step2 := pyStripList (collapseRuns (fun c => c.isWhitespace) ' ' false step1)
    if step2.isEmpty then "download" else String.mk step2

/-- One postprocessor dictionary passed to yt-dlp. -/
structure Postprocessor where
  key : String
  preferredcodec : String
  preferredquality : String
deriving DecidableEq, Repr

/-- `build_format_and_postprocessors` of `app.py` (lines 42-80). -/
def build_format_and_postprocessors (quality : String) : String × List Postprocessor :=
  let q := pyLower (pyOrStrO (some quality) "best")
  if q = "audio" then
    ("bestaudio/best", [{ key := "FFmpegExtractAudio", preferredcodec := "mp3",
                          preferredquality := "192" }])
  else if q = "1080p" then
    ("bestvideo[height<=1080][ext=mp4]+bestaudio[ext=m4a]/best[height<=1080][ext=mp4]/best[height<=1080]", [])
  else if q = "720p" then
    ("bestvideo[height<=720][ext=mp4]+bestaudio[ext=m4a]/best[height<=720][ext=mp4]/best[height<=720]", [])
  else if q = "480p" then
    ("bestvideo[height<=480][ext=mp4]+bestaudio[ext=m4a]/best[height<=480][ext=mp4]/best[height<=480]", [])
  else
    ("bestvideo[ext=mp4]+bestaudio[ext=m4a]/best[ext=mp4]/best", [])

/-- The playlist policy of `download_worker` (lines 149-156): only
`"single"` sets `noplaylist`; `"playlist"` and the `"auto"` fallback leave
playlists enabled. -/
def noplaylistFor (download_type : String) : Bool :=
  if download_type = "single" then true
  else if download_type = "playlist" then false
  else false

/-- The output directory constant; the absolute `base_dir` prefix is
deployment-specific and omitted. -/
def downloads_dir : String := "static/downloads"

/-- The yt-dlp options dictionary built at lines 161-168.  The
`progress_hooks` entry holds the closure `progress_hook_for(job_id)` and is
modelled by the `hook` function above rather than stored as data. -/
structure YdlOpts where
  outtmpl : String
  format : String
  merge_output_format : String
  noplaylist : Bool
  postprocessors : List Postprocessor
deriving DecidableEq, Repr

/-- The `ydl_opts` value for a job with the given request parameters. -/
def ydlOptsFor (quality download_type : String) : YdlOpts :=
  { outtmpl := downloads_dir ++ "/%(title)s.%(ext)s"
    format := (build_format_and_postprocessors quality).1
    merge_output_format := "mp4"
    noplaylist := noplaylistFor download_type
    postprocessors := (build_format_and_postprocessors quality).2 }

/-- The metadata dictionary returned by `ydl.extract_info`.  `entries` models
`info.get("entries")`; `prepared_filename` models the engine call
`ydl.prepare_filename(info)`.  Which entry files exist on disk (and hence
enter the zip archive) is a filesystem effect outside the record state and is
not modelled; only the name written into `job["filename"]` is. -/
structure Info where
  _type : Option String
  title : Option String
  entries : Option (List (Option String))
  prepared_filename : String
deriving DecidableEq, Repr

/-- The `is_playlist` test of lines 175-179 (`info` is always a dict in this
model). -/
def isPlaylistInfo (info : Info) : Bool := info._type == some "playlist"

/-- The result-bundling decision of line 181. -/
def shouldBundle (info : Info) (download_type : String) : Bool :=
  isPlaylistInfo info && !(noplaylistFor download_type)

/-- The name stored into `job["filename"]` at lines 181-199: the sanitized
playlist title with `.zip` when bundling, else the base name of the prepared
single-file name. -/
def resultFilename (info : Info) (download_type : String) : String :=
  if shouldBundle info download_type then
    sanitize_filename (pyOrStrO info.title "playlist") ++ ".zip"
  else
    os_path_basename info.prepared_filename

/-- A Python exception reaching the worker's `except` clause: whether it is
(an instance of) `DownloadCancelled`, and its `str(e)`. -/
structure PyExc where
  isDownloadCancelled : Bool
  msg : String
deriving DecidableEq, Repr

/-- Python `"DOWNLOAD_CANCELLED" in str(e)`. -/
def containsCancelled (s : String) : Bool :=
  listHasSubstr "DOWNLOAD_CANCELLED".data s.data

/-- The cancellation test of line 206:
`isinstance(e, DownloadCancelled) or "DOWNLOAD_CANCELLED" in str(e)`. -/
def isCancelSignal (e : PyExc) : Bool :=
  e.isDownloadCancelled || containsCancelled e.msg

/-- Python `float(job.get("progress") or 0.0)` of line 213 (the `progress`
key is always present once the worker has started). -/
def pyOrProgress (p : ℚ) : ℚ := if p = 0 then 0 else p

/-- The worker's `except` clause (lines 205-213): classify the failure, then
re-store the current progress. -/
def finalizeExcept (j : Job) (e : PyExc) : Job :=
  let j1 :=
    if isCancelSignal e then { j with status := .cancelled, error := none }
    else { j with status := .error, error := some e.msg }
  { j1 with progress := pyOrProgress j1.progress }

/-- The worker's success epilogue (lines 201-204). -/
def finalizeSuccess (j : Job) : Job :=
  { j with status := .completed, progress := 100, speed := none, eta := none }

/-- The worker's entry writes (lines 138-147): a missing record aborts the
worker with no writes, otherwise `status`/`progress` are initialized. -/
def worker_start (oj : Option Job) : Option Job :=
  match oj with
  | none => none
  | some j => some { j with status := .starting, progress := 0 }

/-- `cancel_download`'s effect on a present record (lines 298-305): terminal
records are returned untouched; otherwise the cancel flag is set and
non-`queued`/`starting` records become `cancelling`. -/
def cancelUpdate (j : Job) : Job :=
  if terminalStatus j.status then j
  else if j.status = .queued ∨ j.status = .starting then { j with cancel := true }
  else { j with cancel := true, status := .cancelling }

/-- The in-memory `DOWNLOAD_JOBS` registry, as an association list. -/
abbrev Registry := List (String × Job)

/-- `DOWNLOAD_JOBS.get(job_id)`. -/
def regGet : Registry → String → Option Job
  | [], _ => none
  | (k, v) :: rest, id => if k = id then some v else regGet rest id

/-- `DOWNLOAD_JOBS[job_id] = job` (update or insert). -/
def regSet : Registry → String → Job → Registry
  | [], id, j => [(id, j)]
  | (k, v) :: rest, id, j =>
      if k = id then (k, j) :: rest else (k, v) :: regSet rest id j

/-- One registry-level invocation of the hook closure (lines 84-91): a record
absent from `DOWNLOAD_JOBS` makes the hook return with no writes and no
exception; the second component reports whether `DownloadCancelled` was
raised. -/
def hookSys (reg : Registry) (id : String) (d : HookEvent) : Registry × Bool :=
  match regGet reg id with
  | none => (reg, false)
  | some j =>
      match hook j d with
      | .raised => (reg, true)
      | .ok j' => (regSet reg id j', false)

/-- `cancel_download` at the registry level (lines 292-307): `none` in the
second component is the 404 response. -/
def cancel_download (reg : Registry) (id : String) : Registry × Option Status :=
  match regGet reg id with
  | none => (reg, none)
  | some j => (regSet reg id (cancelUpdate j), some (cancelUpdate j).status)

/-- `JOB_CLEANUP_SECONDS = 60 * 60`. -/
def JOB_CLEANUP_SECONDS : ℚ := 60 * 60

/-- `cleanup_old_jobs` (lines 216-225): drop every record whose age exceeds
the retention window (`created_at` is always present in this model, matching
its unconditional initialization). -/
def cleanup_old_jobs (reg : Registry) (now : ℚ) : Registry :=
  reg.filter (fun p => !(decide (now - p.2.created_at > JOB_CLEANUP_SECONDS)))

/-- The JSON body of `POST /api/start_download`, each field read with
`data.get(...)`. -/
structure StartRequest where
  url : Option String
  quality : Option String
  download_type : Option String
deriving DecidableEq, Repr

/-- The record inserted into `DOWNLOAD_JOBS` at lines 250-260.  Keys the dict
literal omits (`cancel`, byte counters, `speed`, `eta`) carry their
`dict.get` defaults. -/
def newJob (id url quality download_type : String) (created_at : ℚ) : Job :=
  { id := id, url := url, quality := quality, download_type := download_type
    status := .queued, progress := 0, filename := none, error := none
    cancel := false, downloaded_bytes := none, total_bytes := none
    speed := none, eta := none, created_at := created_at }

/-- `start_download` (lines 234-265).  `now` models `time.time()` and
`freshId` the generated `uuid4` (assumed fresh by uniqueness of UUIDs); the
`Except` value is the JSON response: `error` is the 400 response, `ok` carries
the returned `job_id`. -/
def start_download (data : StartRequest) (reg : Registry) (now : ℚ)
    (freshId : String) : Registry × Except String String :=
  let url := pyStrip (pyOrStrO data.url "")
  let quality := pyStrip (pyOrStrO data.quality "best")
  let dt0 := pyLower (pyStrip (pyOrStrO data.download_type "auto"))
  if url = "" then (reg, .error "URL is required")
  else
    let dt := if dt0 = "auto" ∨ dt0 = "single" ∨ dt0 = "playlist" then dt0 else "auto"
    let reg1 := cleanup_old_jobs reg now
    (regSet reg1 freshId (newJob freshId url quality dt now), .ok freshId)

/-- Delivering a list of hook events to one record in sequence: `none` when
`DownloadCancelled` was raised, otherwise the final record together with the
sequence of `progress` values written. -/
def hookRun : Job → List HookEvent → Option (Job × List ℚ)
  | j, [] => some (j, [])
  | j, d :: ds =>
      match hook j d with
      | .raised => none
      | .ok j' => (hookRun j' ds).map (fun p => (p.1, j'.progress :: p.2))

/-- Where the single worker thread of a job stands.  Each phase boundary is a
point at which another thread (a poller or canceller) can observe the record,
mirroring the statement boundaries of `download_worker`:

* `notStarted`: the thread was spawned but has not executed line 139 yet;
* `engine`: inside `ydl.extract_info` (lines 170-172) — the only place where
  progress-hook events are delivered;
* `gotInfo info`: `extract_info` returned `info`, the result has not been
  bundled yet (lines 174-194);
* `fileWritten`: `job["filename"]` was assigned (line 195 or 199) but the
  success epilogue (lines 201-204) has not run;
* `excepted e`: an exception is propagating, the `except` clause (lines
  205-213) has not run;
* `done`: the worker returned. -/
inductive Phase
  | notStarted
  | engine
  | gotInfo (info : Info)
  | fileWritten
  | excepted (e : PyExc)
  | done

/-- Observable state of one job: the registry entry (which the sweep may have
removed) and the worker phase.  The worker holds a direct object reference
taken at line 139, so after a sweep its writes are invisible to pollers; the
model therefore drops them. -/
structure Sys where
  job : Option Job
  phase : Phase

/-- The interleaved small-step semantics of one job: worker steps, hook
deliveries, cancellation requests, and sweeps. -/
inductive Step : Sys → Sys → Prop
  | workerStartFound (j : Job) :
      Step ⟨some j, .notStarted⟩
        ⟨some { j with status := .starting, progress := 0 }, .engine⟩
  | workerStartMissing :
      Step ⟨none, .notStarted⟩ ⟨none, .done⟩
  | hookFires (j : Job) (d : HookEvent) (j' : Job) :
      hook j d = .ok j' →
      Step ⟨some j, .engine⟩ ⟨some j', .engine⟩
  | hookRaises (j : Job) (d : HookEvent) (e : PyExc) :
      hook j d = .raised → isCancelSignal e = true →
      Step ⟨some j, .engine⟩ ⟨some j, .excepted e⟩
  | hookMissing (d : HookEvent) :
      Step ⟨none, .engine⟩ ⟨none, .engine⟩
  | engineReturns (oj : Option Job) (info : Info) :
      Step ⟨oj, .engine⟩ ⟨oj, .gotInfo info⟩
  | engineRaises (oj : Option Job) (e : PyExc) :
      Step ⟨oj, .engine⟩ ⟨oj, .excepted e⟩
  | bundleWrite (j : Job) (info : Info) :
      Step ⟨some j, .gotInfo info⟩
        ⟨some { j with filename := some (resultFilename info j.download_type) },
          .fileWritten⟩
  | bundleRaises (oj : Option Job) (info : Info) (e : PyExc) :
      Step ⟨oj, .gotInfo info⟩ ⟨oj, .excepted e⟩
  | bundleMissing (info : Info) :
      Step ⟨none, .gotInfo info⟩ ⟨none, .fileWritten⟩
  | completeWrite (j : Job) :
      Step ⟨some j, .fileWritten⟩ ⟨some (finalizeSuccess j), .done⟩
  | completeMissing :
      Step ⟨none, .fileWritten⟩ ⟨none, .done⟩
  | exceptWrite (j : Job) (e : PyExc) :
      Step ⟨some j, .excepted e⟩ ⟨some (finalizeExcept j e), .done⟩
  | exceptMissing (e : PyExc) :
      Step ⟨none, .excepted e⟩ ⟨none, .done⟩
  | cancelCall (j : Job) (ph : Phase) :
      Step ⟨some j, ph⟩ ⟨some (cancelUpdate j), ph⟩
  | sweepRemove (j : Job) (ph : Phase) :
      Step ⟨some j, ph⟩ ⟨none, ph⟩

/-- Reachability in zero or more interleaved steps. -/
def Reaches : Sys → Sys → Prop := Relation.ReflTransGen Step

/-- The state right after `start_download` inserted the record and spawned the
worker thread. -/
def initSys (id url quality download_type : String) (created_at : ℚ) : Sys :=
  ⟨some (newJob id url quality download_type created_at), .notStarted⟩

/-- Per-phase record invariant: which statuses and `filename` values a
present record can hold at each worker phase. -/
def phaseInv : Phase → Job → Prop
  | .notStarted, j => j.status = .queued ∧ j.filename = none
  | .engine, j => activeStatus j.status = true ∧ j.filename = none
  | .gotInfo _, j => activeStatus j.status = true ∧ j.filename = none
  | .excepted _, j => activeStatus j.status = true ∧ j.filename = none
  | .fileWritten, j => activeStatus j.status = true ∧ j.filename ≠ none
  | .done, j =>
      (j.status = .completed ∧ j.filename ≠ none) ∨
        ((j.status = .cancelled ∨ j.status = .error) ∧ j.filename = none)

/-- System invariant: every present record satisfies the phase invariant. -/
def Inv (s : Sys) : Prop := ∀ j, s.job = some j → phaseInv s.phase j

theorem hook_ok_elim {j : Job} {d : HookEvent} {j' : Job}
    (h : hook j d = .ok j') : j.cancel = false ∧ j' = hookUpdate j d := by
  unfold hook at h
  by_cases hc : j.cancel = true
  · simp [hc] at h
  · simp only [Bool.not_eq_true] at hc
    simp [hc] at h
    exact ⟨hc, h.symm⟩

theorem hookUpdate_filename (j : Job) (d : HookEvent) :
    (hookUpdate j d).filename = j.filename := by
  unfold hookUpdate; split_ifs <;> rfl

theorem hookUpdate_cancel (j : Job) (d : HookEvent) :
    (hookUpdate j d).cancel = j.cancel := by
  unfold hookUpdate; split_ifs <;> rfl

theorem hookUpdate_status (j : Job) (d : HookEvent) :
    (hookUpdate j d).status = .downloading ∨ (hookUpdate j d).status = .processing ∨
      (hookUpdate j d).status = j.status := by
  unfold hookUpdate; split_ifs <;> simp

theorem cancelUpdate_terminal {j : Job} (h : terminalStatus j.status = true) :
    cancelUpdate j = j := by
  unfold cancelUpdate; simp [h]

theorem cancelUpdate_filename (j : Job) :
    (cancelUpdate j).filename = j.filename := by
  unfold cancelUpdate; split_ifs <;> rfl

theorem cancelUpdate_status (j : Job) :
    (cancelUpdate j).status = j.status ∨ (cancelUpdate j).status = .cancelling := by
  unfold cancelUpdate; split_ifs <;> simp

theorem cancelUpdate_active {j : Job} (h : activeStatus j.status = true) :
    activeStatus (cancelUpdate j).status = true := by
  rcases cancelUpdate_status j with h1 | h1
  · rw [h1]; exact h
  · rw [h1]; rfl

theorem cancelUpdate_queued {j : Job} (h : j.status = .queued) :
    (cancelUpdate j).status = .queued := by
  unfold cancelUpdate
  simp [h, terminalStatus]

theorem finalizeExcept_filename (j : Job) (e : PyExc) :
    (finalizeExcept j e).filename = j.filename := by
  unfold finalizeExcept; split_ifs <;> rfl

theorem finalizeExcept_status (j : Job) (e : PyExc) :
    (finalizeExcept j e).status = .cancelled ∨ (finalizeExcept j e).status = .error := by
  unfold finalizeExcept; split_ifs <;> simp

theorem activeStatus_not_terminal {st : Status} (h : activeStatus st = true) :
    terminalStatus st = false := by
  cases st <;> simp_all [activeStatus, terminalStatus]

theorem activeStatus_ne_completed {st : Status} (h : activeStatus st = true) :
    st ≠ .completed := by
  cases st <;> simp_all [activeStatus]

theorem inv_init (id url q dt : String) (ca : ℚ) : Inv (initSys id url q dt ca) := by
  intro j hj
  simp only [initSys] at hj
  injection hj with hj
  subst hj
  exact ⟨rfl, rfl⟩

theorem inv_step {s s' : Sys} (hs : Inv s) (h : Step s s') : Inv s' := by
  cases h with
  | workerStartFound j =>
      intro x hx
      injection hx with hx
      subst hx
      exact ⟨rfl, (hs j rfl).2⟩
  | workerStartMissing =>
      intro x hx; exact Option.noConfusion hx
  | hookFires j d j' hok =>
      intro x hx
      injection hx with hx
      subst hx
      obtain ⟨-, hj'⟩ := hook_ok_elim hok
      subst hj'
      refine ⟨?_, by rw [hookUpdate_filename]; exact (hs j rfl).2⟩
      rcases hookUpdate_status j d with h1 | h1 | h1
      · rw [h1]; rfl
      · rw [h1]; rfl
      · rw [h1]; exact (hs j rfl).1
  | hookRaises j d e hr hc =>
      intro x hx
      injection hx with hx
      subst hx
      exact hs _ rfl
  | hookMissing d =>
      intro x hx; exact Option.noConfusion hx
  | engineReturns oj info =>
      intro x hx; exact hs x hx
  | engineRaises oj e =>
      intro x hx; exact hs x hx
  | bundleWrite j info =>
      intro x hx
      injection hx with hx
      subst hx
      exact ⟨(hs j rfl).1, by simp⟩
  | bundleRaises oj info e =>
      intro x hx; exact hs x hx
  | bundleMissing info =>
      intro x hx; exact Option.noConfusion hx
  | completeWrite j =>
      intro x hx
      injection hx with hx
      subst hx
      exact Or.inl ⟨rfl, (hs j rfl).2⟩
  | completeMissing =>
      intro x hx; exact Option.noConfusion hx
  | exceptWrite j e =>
      intro x hx
      injection hx with hx
      subst hx
      refine Or.inr ⟨?_, by rw [finalizeExcept_filename]; exact (hs j rfl).2⟩
      rcases finalizeExcept_status j e with h1 | h1
      · exact Or.inl h1
      · exact Or.inr h1
  | exceptMissing e =>
      intro x hx; exact Option.noConfusion hx
  | cancelCall j ph =>
      intro x hx
      injection hx with hx
      subst hx
      have hinv := hs j rfl
      cases ph with
      | notStarted =>
          exact ⟨cancelUpdate_queued hinv.1, by rw [cancelUpdate_filename]; exact hinv.2⟩
      | engine =>
          exact ⟨cancelUpdate_active hinv.1, by rw [cancelUpdate_filename]; exact hinv.2⟩
      | gotInfo info =>
          exact ⟨cancelUpdate_active hinv.1, by rw [cancelUpdate_filename]; exact hinv.2⟩
      | fileWritten =>
          exact ⟨cancelUpdate_active hinv.1, by rw [cancelUpdate_filename]; exact hinv.2⟩
      | excepted e =>
          exact ⟨cancelUpdate_active hinv.1, by rw [cancelUpdate_filename]; exact hinv.2⟩
      | done =>
          have hterm : terminalStatus j.status = true := by
            rcases hinv with ⟨h1, -⟩ | ⟨h1 | h1, -⟩ <;> rw [h1] <;> rfl
          rw [cancelUpdate_terminal hterm]
          exact hinv
  | sweepRemove j ph =>
      intro x hx; exact Option.noConfusion hx

theorem inv_reaches {s0 s : Sys} (h0 : Inv s0) (h : Reaches s0 s) : Inv s := by
  induction h with
  | refl => exact h0
  | tail _ hstep ih => exact inv_step ih hstep

theorem reaches_terminal_done {id url q dt : String} {ca : ℚ} {s : Sys} {j : Job}
    (h : Reaches (initSys id url q dt ca) s) (hj : s.job = some j)
    (hterm : terminalStatus j.status = true) : s.phase = .done := by
  have hinv := inv_reaches (inv_init id url q dt ca) h j hj
  obtain ⟨oj, ph⟩ := s
  cases ph
  · rw [hinv.1] at hterm; exact absurd hterm (by decide)
  · rw [activeStatus_not_terminal hinv.1] at hterm; exact absurd hterm (by decide)
  · rw [activeStatus_not_terminal hinv.1] at hterm; exact absurd hterm (by decide)
  · rw [activeStatus_not_terminal hinv.1] at hterm; exact absurd hterm (by decide)
  · rw [activeStatus_not_terminal hinv.1] at hterm; exact absurd hterm (by decide)
  · rfl

theorem floor_le_roundHalfEven (x : ℚ) : ⌊x⌋ ≤ roundHalfEven x := by
  unfold roundHalfEven; split_ifs <;> omega

theorem roundHalfEven_le_floor_add_one (x : ℚ) : roundHalfEven x ≤ ⌊x⌋ + 1 := by
  unfold roundHalfEven; split_ifs <;> omega

theorem roundHalfEven_mono {x y : ℚ} (h : x ≤ y) :
    roundHalfEven x ≤ roundHalfEven y := by
  rcases lt_or_le ⌊x⌋ ⌊y⌋ with hf | hf
  · calc roundHalfEven x ≤ ⌊x⌋ + 1 := roundHalfEven_le_floor_add_one x
      _ ≤ ⌊y⌋ := hf
      _ ≤ roundHalfEven y := floor_le_roundHalfEven y
  · have hfe : ⌊y⌋ = ⌊x⌋ := le_antisymm hf (Int.floor_le_floor h)
    have hxy : x - (⌊x⌋ : ℚ) ≤ y - (⌊x⌋ : ℚ) := by linarith
    unfold roundHalfEven
    rw [hfe]
    split_ifs <;> first | omega | (exfalso; linarith)

theorem roundHalfEven_intCast (n : ℤ) : roundHalfEven (n : ℚ) = n := by
  unfold roundHalfEven
  rw [Int.floor_intCast]
  norm_num

theorem round2_mono {x y : ℚ} (h : x ≤ y) : round2 x ≤ round2 y := by
  unfold round2
  have h1 := roundHalfEven_mono (mul_le_mul_of_nonneg_right h (by norm_num : (0:ℚ) ≤ 100))
  have h2 : ((roundHalfEven (x * 100) : ℤ) : ℚ) ≤ ((roundHalfEven (y * 100) : ℤ) : ℚ) := by
    exact_mod_cast h1
  linarith

theorem round2_bounds {x : ℚ} (h0 : 0 ≤ x) (h1 : x ≤ 100) :
    0 ≤ round2 x ∧ round2 x ≤ 100 := by
  have hlo : (0 : ℤ) ≤ roundHalfEven (x * 100) := by
    have h := roundHalfEven_mono (by push_cast; linarith : (((0:ℤ) : ℚ)) ≤ x * 100)
    rwa [roundHalfEven_intCast] at h
  have hhi : roundHalfEven (x * 100) ≤ (10000 : ℤ) := by
    have h := roundHalfEven_mono (by push_cast; linarith : x * 100 ≤ (((10000:ℤ) : ℚ)))
    rwa [roundHalfEven_intCast] at h
  constructor
  · unfold round2
    have h2 : ((0:ℤ) : ℚ) ≤ ((roundHalfEven (x * 100) : ℤ) : ℚ) := by exact_mod_cast hlo
    push_cast at h2
    linarith
  · unfold round2
    have h2 : ((roundHalfEven (x * 100) : ℤ) : ℚ) ≤ ((10000:ℤ) : ℚ) := by exact_mod_cast hhi
    push_cast at h2
    linarith

theorem clampQ_bounds (x : ℚ) : 0 ≤ clampQ x ∧ clampQ x ≤ 100 := by
  unfold clampQ
  exact ⟨le_min (le_max_right x 0) (by norm_num), min_le_right _ _⟩

theorem clampQ_mono {x y : ℚ} (h : x ≤ y) : clampQ x ≤ clampQ y :=
  min_le_min (max_le_max h le_rfl) le_rfl

theorem progressOf_bounds (d : HookEvent) : 0 ≤ progressOf d ∧ progressOf d ≤ 100 := by
  unfold progressOf
  exact round2_bounds (clampQ_bounds _).1 (clampQ_bounds _).2

theorem itemPercent_total {d : HookEvent} {t : Int} (ht : d.total_bytes = some t)
    (htpos : 0 < t) : itemPercent d = (eventDownloaded d : ℚ) / (t : ℚ) * 100 := by
  have het : eventTotal d = t := by
    unfold eventTotal optIntTruthy
    rw [ht]
    simp [show ¬ t = 0 by omega]
  unfold itemPercent
  rw [het]
  simp [show ¬ t = 0 by omega]

theorem itemPercent_mono {d1 d2 : HookEvent} {t : Int}
    (ht1 : d1.total_bytes = some t) (ht2 : d2.total_bytes = some t) (htpos : 0 < t)
    (hb : eventDownloaded d1 ≤ eventDownloaded d2) :
    itemPercent d1 ≤ itemPercent d2 := by
  rw [itemPercent_total ht1 htpos, itemPercent_total ht2 htpos]
  have hbq : ((eventDownloaded d1 : ℤ) : ℚ) ≤ ((eventDownloaded d2 : ℤ) : ℚ) := by
    exact_mod_cast hb
  have htq : (0 : ℚ) < (t : ℚ) := by exact_mod_cast htpos
  exact mul_le_mul_of_nonneg_right ((div_le_div_iff_of_pos_right htq).mpr hbq) (by norm_num)

theorem progressOf_mono {d1 d2 : HookEvent} {t : Int}
    (ht1 : d1.total_bytes = some t) (ht2 : d2.total_bytes = some t) (htpos : 0 < t)
    (hpi : d1.playlist_index = d2.playlist_index)
    (hpc : d1.playlist_count = d2.playlist_count)
    (hb : eventDownloaded d1 ≤ eventDownloaded d2) :
    progressOf d1 ≤ progressOf d2 := by
  have hip := itemPercent_mono ht1 ht2 htpos hb
  have hov : overallPercent d1 ≤ overallPercent d2 := by
    unfold overallPercent
    rw [hpi, hpc]
    cases hI : optIntTruthy d2.playlist_index with
    | none => simpa using hip
    | some i =>
        cases hN : optIntTruthy d2.playlist_count with
        | none => simpa using hip
        | some n =>
            simp only []
            have hM : (0 : ℚ) < max (n : ℚ) 1 := lt_of_lt_of_le zero_lt_one (le_max_right _ _)
            refine mul_le_mul_of_nonneg_right ((div_le_div_iff_of_pos_right hM).mpr ?_) (by norm_num)
            linarith
  exact round2_mono (clampQ_mono hov)

theorem hookUpdate_downloading_progress {j : Job} {d : HookEvent}
    (hd : d.status = some "downloading") :
    (hookUpdate j d).progress = progressOf d := by
  unfold hookUpdate progressOf
  simp [hd]

theorem hookRun_downloading {j : Job} {ds : List HookEvent}
    (hc : j.cancel = false) (hall : ∀ d ∈ ds, d.status = some "downloading") :
    hookRun j ds = some (ds.foldl hookUpdate j, ds.map progressOf) := by
  induction ds generalizing j with
  | nil => rfl
  | cons d ds ih =>
      have hok : hook j d = .ok (hookUpdate j d) := by
        unfold hook; simp [hc]
      have hd : d.status = some "downloading" := hall d (by simp)
      simp only [hookRun, hok, List.foldl_cons, List.map_cons]
      rw [ih (by rw [hookUpdate_cancel]; exact hc)
        (fun x hx => hall x (List.mem_cons_of_mem d hx))]
      simp [hookUpdate_downloading_progress hd]

theorem pairwise_imp_of_mem {α : Type} {R S : α → α → Prop} :
    ∀ {l : List α}, (∀ a ∈ l, ∀ b ∈ l, R a b → S a b) → l.Pairwise R → l.Pairwise S := by
  intro l
  induction l with
  | nil => intro _ _; exact List.Pairwise.nil
  | cons d ds ih =>
      intro h hp
      rw [List.pairwise_cons] at hp ⊢
      refine ⟨fun b hb => h d (List.mem_cons_self d ds) b (List.mem_cons_of_mem d hb)
        (hp.1 b hb), ?_⟩
      exact ih (fun a ha b hb hr =>
        h a (List.mem_cons_of_mem d ha) b (List.mem_cons_of_mem d hb) hr) hp.2

theorem regGet_regSet (reg : Registry) (id : String) (j : Job) :
    regGet (regSet reg id j) id = some j := by
  induction reg with
  | nil => simp [regSet, regGet]
  | cons p rest ih =>
      obtain ⟨k, v⟩ := p
      by_cases hk : k = id
      · simp [regSet, regGet, hk]
      · simp [regSet, regGet, hk, ih]

/-- A freshly created sample record (as inserted by `start_download`). -/
def exJob0 : Job := newJob "w" "u" "best" "auto" 0

/-- The sample record after the worker's entry writes. -/
def exJob1 : Job := { exJob0 with status := .starting, progress := 0 }

/-- A sample engine failure that is not the cancellation signal. -/
def exExc : PyExc := { isDownloadCancelled := false, msg := "boom" }

/-- The sample cancellation signal itself. -/
def exCancelExc : PyExc := { isDownloadCancelled := true, msg := "DOWNLOAD_CANCELLED" }

/-- The sample record finalized after `exExc`. -/
def exJobTerm : Job := finalizeExcept exJob1 exExc

/-- Sample single-video metadata returned by the engine. -/
def exInfo : Info :=
  { _type := none, title := none, entries := none
    prepared_filename := "static/downloads/video.mp4" }

/-- The sample record after the filename write, before the success epilogue. -/
def exJobFile : Job :=
  { exJob1 with filename := some (resultFilename exInfo exJob1.download_type) }

/-- A sample playlist progress event: item 2 of 4 at 50% of its bytes. -/
def exPlaylistEvent : HookEvent :=
  { status := some "downloading", downloaded_bytes := some 100
    total_bytes := some 200, total_bytes_estimate := none, _percent_str := none
    speed := none, eta := none, playlist_index := some 2, playlist_count := some 4 }

/-- C1: for every `downloading` progress event whose raw metrics carry a
1-based playlist index `i` and a positive playlist count `n`, the hook does
not raise and writes `((i - 1) + item_percent / 100) / max(n, 1) * 100`,
clamped to `[0, 100]` and rounded to two decimal places, into the record's
`progress`. -/
theorem playlist_overall_formula (j : Job) (d : HookEvent) (i n : Int)
    (hc : j.cancel = false) (hst : d.status = some "downloading")
    (hi : d.playlist_index = some i) (hn : d.playlist_count = some n)
    (hi1 : 1 ≤ i) (hn1 : 1 ≤ n) :
    hook j d = .ok (hookUpdate j d) ∧
    (hookUpdate j d).progress =
      round2 (clampQ ((((i : ℚ) - 1) + itemPercent d / 100) / max (n : ℚ) 1 * 100)) := by
  refine ⟨by unfold hook; simp [hc], ?_⟩
  rw [hookUpdate_downloading_progress hst]
  unfold progressOf overallPercent
  rw [hi, hn]
  simp [optIntTruthy, show ¬ i = 0 by omega, show ¬ n = 0 by omega]

/-- C1 witness: the spec's own numeric instance — count 4, index 2, item at
50% — yields exactly 37.5. -/
theorem playlist_overall_formula_witness :
    hook exJob0 exPlaylistEvent = .ok (hookUpdate exJob0 exPlaylistEvent) ∧
    (hookUpdate exJob0 exPlaylistEvent).progress = 37.5 := by
  have h := playlist_overall_formula exJob0 exPlaylistEvent 2 4 rfl rfl rfl rfl
    (by decide) (by decide)
  refine ⟨h.1, ?_⟩
  rw [h.2]
  decide

/-- C2: once a record's status is terminal, no later step of the system — a
hook event, a cancel call, or any worker step — changes its `status`,
`progress`, `filename`, or `error`. -/
theorem terminal_state_immutable {id url q dt : String} {ca : ℚ} {s s' : Sys}
    {j j' : Job}
    (hreach : Reaches (initSys id url q dt ca) s) (hstep : Step s s')
    (hj : s.job = some j) (hterm : terminalStatus j.status = true)
    (hj' : s'.job = some j') :
    j'.status = j.status ∧ j'.progress = j.progress ∧
      j'.filename = j.filename ∧ j'.error = j.error := by
  have hdone := reaches_terminal_done hreach hj hterm
  cases hstep with
  | workerStartFound j0 => exact Phase.noConfusion hdone
  | workerStartMissing => exact Option.noConfusion hj
  | hookFires j0 d j1 hok => exact Phase.noConfusion hdone
  | hookRaises j0 d e hr hc => exact Phase.noConfusion hdone
  | hookMissing d => exact Option.noConfusion hj
  | engineReturns oj info => exact Phase.noConfusion hdone
  | engineRaises oj e => exact Phase.noConfusion hdone
  | bundleWrite j0 info => exact Phase.noConfusion hdone
  | bundleRaises oj info e => exact Phase.noConfusion hdone
  | bundleMissing info => exact Option.noConfusion hj
  | completeWrite j0 => exact Phase.noConfusion hdone
  | completeMissing => exact Option.noConfusion hj
  | exceptWrite j0 e => exact Phase.noConfusion hdone
  | exceptMissing e => exact Option.noConfusion hj
  | cancelCall j0 ph =>
      injection hj with h0
      subst h0
      injection hj' with h1
      rw [cancelUpdate_terminal hterm] at h1
      subst h1
      exact ⟨rfl, rfl, rfl, rfl⟩
  | sweepRemove j0 ph => exact Option.noConfusion hj'

/-- C2 witness: a job finalized as `error` is untouched by a subsequent
cancel call. -/
theorem terminal_state_immutable_witness :
    (cancelUpdate exJobTerm).status = exJobTerm.status ∧
    (cancelUpdate exJobTerm).progress = exJobTerm.progress ∧
    (cancelUpdate exJobTerm).filename = exJobTerm.filename ∧
    (cancelUpdate exJobTerm).error = exJobTerm.error := by
  have s1 : Step (initSys "w" "u" "best" "auto" 0) ⟨some exJob1, .engine⟩ :=
    Step.workerStartFound exJob0
  have s2 : Step ⟨some exJob1, .engine⟩ ⟨some exJob1, .excepted exExc⟩ :=
    Step.engineRaises (some exJob1) exExc
  have s3 : Step ⟨some exJob1, .excepted exExc⟩ ⟨some exJobTerm, .done⟩ :=
    Step.exceptWrite exJob1 exExc
  have hreach : Reaches (initSys "w" "u" "best" "auto" 0) ⟨some exJobTerm, .done⟩ :=
    Relation.ReflTransGen.tail (Relation.ReflTransGen.tail
      (Relation.ReflTransGen.tail Relation.ReflTransGen.refl s1) s2) s3
  exact terminal_state_immutable hreach (Step.cancelCall exJobTerm .done) rfl
    (by decide) rfl

/-- C3 counterexample: a reachable, poll-observable state (right after the
worker assigned `job["filename"]`, before it wrote `status = "completed"`)
whose record has a non-null filename and a non-`completed` status, refuting
the claimed iff. -/
theorem result_iff_completed_cex :
    Reaches (initSys "w" "u" "best" "auto" 0) ⟨some exJobFile, .fileWritten⟩ ∧
    exJobFile.filename ≠ none ∧ exJobFile.status ≠ Status.completed := by
  refine ⟨?_, by decide, by decide⟩
  have s1 : Step (initSys "w" "u" "best" "auto" 0) ⟨some exJob1, .engine⟩ :=
    Step.workerStartFound exJob0
  have s2 : Step ⟨some exJob1, .engine⟩ ⟨some exJob1, .gotInfo exInfo⟩ :=
    Step.engineReturns (some exJob1) exInfo
  have s3 : Step ⟨some exJob1, .gotInfo exInfo⟩ ⟨some exJobFile, .fileWritten⟩ :=
    Step.bundleWrite exJob1 exInfo
  exact Relation.ReflTransGen.tail (Relation.ReflTransGen.tail
    (Relation.ReflTransGen.tail Relation.ReflTransGen.refl s1) s2) s3

/-- C3 (amended): at every reachable observable state, the record's filename
is non-null iff its status is `completed` or the worker sits in the window
between the filename write and the final status write. -/
theorem result_iff_completed_amended {id url q dt : String} {ca : ℚ} {s : Sys}
    {j : Job}
    (h : Reaches (initSys id url q dt ca) s) (hj : s.job = some j) :
    j.filename ≠ none ↔ (j.status = .completed ∨ s.phase = .fileWritten) := by
  have hinv := inv_reaches (inv_init id url q dt ca) h j hj
  obtain ⟨oj, ph⟩ := s
  cases ph
  · simp [hinv.1, hinv.2]
  · have h1 := activeStatus_ne_completed hinv.1
    simp [hinv.2, h1]
  · have h1 := activeStatus_ne_completed hinv.1
    simp [hinv.2, h1]
  · simp [hinv.2]
  · have h1 := activeStatus_ne_completed hinv.1
    simp [hinv.2, h1]
  · rcases hinv with ⟨h1, h2⟩ | ⟨h1, h2⟩
    · simp [h1, h2]
    · rcases h1 with h1 | h1 <;> simp [h1, h2]

/-- C3 amended witness: at the initial state both sides of the iff are
false. -/
theorem result_iff_completed_amended_witness :
    (newJob "w" "u" "best" "auto" 0).filename ≠ none ↔
      ((newJob "w" "u" "best" "auto" 0).status = Status.completed ∨
        (initSys "w" "u" "best" "auto" 0).phase = Phase.fileWritten) :=
  result_iff_completed_amended Relation.ReflTransGen.refl rfl

/-- C4: the worker's except clause maps the cancellation signal (either the
`DownloadCancelled` instance or any failure whose description carries the
marker) to `cancelled` with a null error, any other failure to `error` with
the failure's description, and preserves the progress value in both cases. -/
theorem worker_failure_finalize (j : Job) (e : PyExc) :
    (isCancelSignal e = true →
      (finalizeExcept j e).status = .cancelled ∧ (finalizeExcept j e).error = none) ∧
    (isCancelSignal e = false →
      (finalizeExcept j e).status = .error ∧
        (finalizeExcept j e).error = some e.msg) ∧
    (finalizeExcept j e).progress = j.progress := by
  refine ⟨?_, ?_, ?_⟩
  · intro hc; unfold finalizeExcept; simp [hc]
  · intro hc; unfold finalizeExcept; simp [hc]
  · unfold finalizeExcept pyOrProgress
    split_ifs <;> simp_all

/-- C4 witness: the cancellation signal and a plain failure, finalized on the
sample record. -/
theorem worker_failure_finalize_witness :
    ((finalizeExcept exJob1 exCancelExc).status = Status.cancelled ∧
      (finalizeExcept exJob1 exCancelExc).error = none) ∧
    ((finalizeExcept exJob1 exExc).status = Status.error ∧
      (finalizeExcept exJob1 exExc).error = some "boom") ∧
    (finalizeExcept exJob1 exExc).progress = exJob1.progress := by
  refine ⟨(worker_failure_finalize exJob1 exCancelExc).1 (by decide), ?_,
    (worker_failure_finalize exJob1 exExc).2.2⟩
  exact (worker_failure_finalize exJob1 exExc).2.1 (by decide)

/-- C5: a sequence of `downloading` events with strictly increasing
downloaded bytes, one fixed positive known total, and unchanged playlist
metadata is processed without raising, and the written progress values are
non-decreasing and all within `[0, 100]`. -/
theorem progress_monotone_bounded (j : Job) (t : Int) (pidx pcnt : Option Int)
    (ds : List HookEvent)
    (hc : j.cancel = false)
    (hst : ∀ d ∈ ds, d.status = some "downloading")
    (htot : ∀ d ∈ ds, d.total_bytes = some t)
    (htpos : 0 < t)
    (hmeta : ∀ d ∈ ds, d.playlist_index = pidx ∧ d.playlist_count = pcnt)
    (hinc : ds.Pairwise (fun a b => eventDownloaded a < eventDownloaded b)) :
    hookRun j ds = some (ds.foldl hookUpdate j, ds.map progressOf) ∧
    (ds.map progressOf).Pairwise (fun a b => a ≤ b) ∧
    (∀ p ∈ ds.map progressOf, 0 ≤ p ∧ p ≤ 100) := by
  refine ⟨hookRun_downloading hc hst, ?_, ?_⟩
  · rw [List.pairwise_map]
    refine pairwise_imp_of_mem (fun a ha b hb hr => ?_) hinc
    exact progressOf_mono (htot a ha) (htot b hb) htpos
      ((hmeta a ha).1.trans (hmeta b hb).1.symm)
      ((hmeta a ha).2.trans (hmeta b hb).2.symm) (le_of_lt hr)
  · intro p hp
    rw [List.mem_map] at hp
    obtain ⟨d0, hd0, rfl⟩ := hp
    exact progressOf_bounds d0

/-- Sample event: 50 of 200 bytes. -/
def exEv1 : HookEvent :=
  { status := some "downloading", downloaded_bytes := some 50
    total_bytes := some 200, total_bytes_estimate := none, _percent_str := none
    speed := none, eta := none, playlist_index := none, playlist_count := none }

/-- Sample event: 150 of 200 bytes. -/
def exEv2 : HookEvent :=
  { status := some "downloading", downloaded_bytes := some 150
    total_bytes := some 200, total_bytes_estimate := none, _percent_str := none
    speed := none, eta := none, playlist_index := none, playlist_count := none }

/-- C5 witness: two concrete increasing events on a 200-byte download. -/
theorem progress_monotone_bounded_witness :
    hookRun exJob1 [exEv1, exEv2] =
      some ([exEv1, exEv2].foldl hookUpdate exJob1, [exEv1, exEv2].map progressOf) ∧
    ([exEv1, exEv2].map progressOf).Pairwise (fun a b => a ≤ b) ∧
    (∀ p ∈ [exEv1, exEv2].map progressOf, 0 ≤ p ∧ p ≤ 100) :=
  progress_monotone_bounded exJob1 200 none none [exEv1, exEv2] rfl (by decide)
    (by decide) (by decide) (by decide) (by decide)

/-- A record mid-download with 50% progress recorded. -/
def exJobHalf : Job := { exJob1 with status := .downloading, progress := 50 }

/-- A downloading event with unknown totals and an unparseable percent
string. -/
def exBadEv : HookEvent :=
  { status := some "downloading", downloaded_bytes := none, total_bytes := none
    total_bytes_estimate := none, _percent_str := some "abc", speed := none
    eta := none, playlist_index := none, playlist_count := none }

/-- C6 counterexample: on a `downloading` event with unknown byte total and a
percent string that fails to parse, the hook completes normally but the
record's progress is overwritten with 0, not kept at its previous value
(here 50). -/
theorem percent_parse_failure_cex :
    parsePyFloat (rstripPercent (pyStrip "abc")) = none ∧
    hook exJobHalf exBadEv = .ok (hookUpdate exJobHalf exBadEv) ∧
    exJobHalf.progress = 50 ∧
    (hookUpdate exJobHalf exBadEv).progress = 0 :=
  ⟨by decide, by decide, by decide, by decide⟩

/-- C6 (amended): on a `downloading` event with unknown byte total whose
non-empty percent string fails to parse, the hook completes normally (does
not fail the job), but the local item percent falls back to 0 and the written
progress is the clamped, rounded overall computed from that 0 — 0.0 when no
playlist metadata is present — rather than the record's previous value. -/
theorem percent_parse_failure_amended (j : Job) (d : HookEvent)
    (hc : j.cancel = false) (hst : d.status = some "downloading")
    (htot : eventTotal d = 0)
    (hp : ∃ s, d._percent_str = some s ∧ s ≠ "" ∧
      parsePyFloat (rstripPercent (pyStrip s)) = none) :
    hook j d = .ok (hookUpdate j d) ∧ itemPercent d = 0 ∧
    (hookUpdate j d).progress = round2 (clampQ (overallPercent d)) := by
  obtain ⟨s, hps, hne, hpf⟩ := hp
  refine ⟨by unfold hook; simp [hc], ?_, hookUpdate_downloading_progress hst⟩
  unfold itemPercent
  rw [hps]
  simp [htot, hne, hpf]

/-- C6 amended witness: the `"abc"` percent string on the half-done record. -/
theorem percent_parse_failure_amended_witness :
    hook exJobHalf exBadEv = .ok (hookUpdate exJobHalf exBadEv) ∧
    itemPercent exBadEv = 0 ∧
    (hookUpdate exJobHalf exBadEv).progress = round2 (clampQ (overallPercent exBadEv)) :=
  percent_parse_failure_amended exJobHalf exBadEv rfl rfl (by decide)
    ⟨"abc", rfl, by decide, by decide⟩

/-- C7: cancellation is idempotent — a terminal record is returned unchanged,
a non-terminal record gets the cancel flag and becomes `cancelling` exactly
when past `queued`/`starting`, and applying cancel twice equals applying it
once (so both calls report the same status and no terminal state is ever
reverted). -/
theorem cancel_idempotent (j : Job) :
    (terminalStatus j.status = true → cancelUpdate j = j) ∧
    (terminalStatus j.status = false →
      (cancelUpdate j).cancel = true ∧
      ((j.status = .queued ∨ j.status = .starting) →
        (cancelUpdate j).status = j.status) ∧
      (¬(j.status = .queued ∨ j.status = .starting) →
        (cancelUpdate j).status = .cancelling)) ∧
    cancelUpdate (cancelUpdate j) = cancelUpdate j := by
  obtain ⟨jid, jurl, jq, jdt, st, pr, fn, er, cl, db, tb, sp, et, cr⟩ := j
  cases st <;> simp [cancelUpdate, terminalStatus]

/-- C7 witness: cancel leaves the errored sample record unchanged, and a
second cancel of the fresh record equals the first. -/
theorem cancel_idempotent_witness :
    cancelUpdate exJobTerm = exJobTerm ∧
    cancelUpdate (cancelUpdate exJob0) = cancelUpdate exJob0 :=
  ⟨(cancel_idempotent exJobTerm).1 (by decide), (cancel_idempotent exJob0).2.2⟩

/-- C8: a submission whose url is empty after trimming gets the synchronous
400 `InvalidRequest` response and the registry is untouched; any other
submission creates a `queued` record under the fresh id and returns that
id. -/
theorem submit_url_validation (data : StartRequest) (reg : Registry) (now : ℚ)
    (freshId : String) :
    (pyStrip (pyOrStrO data.url "") = "" →
      start_download data reg now freshId = (reg, .error "URL is required")) ∧
    (pyStrip (pyOrStrO data.url "") ≠ "" →
      (start_download data reg now freshId).2 = .ok freshId ∧
      ∃ job, regGet (start_download data reg now freshId).1 freshId = some job ∧
        job.status = .queued ∧ job.url = pyStrip (pyOrStrO data.url "")) := by
  constructor
  · intro h; unfold start_download; simp [h]
  · intro h
    unfold start_download
    simp only [h, if_neg]
    exact ⟨rfl, _, regGet_regSet _ _ _, rfl, rfl⟩

/-- Sample submissions: one with no url, one with url `"http"`. -/
def exReq1 : StartRequest := { url := none, quality := none, download_type := none }

/-- Sample submission with a present url. -/
def exReq2 : StartRequest := { url := some "http", quality := none, download_type := none }

/-- C8 witness: the empty submission 404s with no job; the non-empty one
returns the fresh id. -/
theorem submit_url_validation_witness :
    start_download exReq1 [] 0 "id-1" = ([], .error "URL is required") ∧
    (start_download exReq2 [] 0 "id-1").2 = .ok "id-1" :=
  ⟨(submit_url_validation exReq1 [] 0 "id-1").1 (by decide),
    ((submit_url_validation exReq2 [] 0 "id-1").2 (by decide)).1⟩

/-- C9: when the job id is absent from `DOWNLOAD_JOBS` (e.g. after a sweep),
the hook returns without raising the cancellation signal and writes nothing,
the worker aborts its start with no writes, and the cancel endpoint responds
404 without setting any flag — so a swept job cannot crash its in-flight
download and can no longer be cancelled. -/
theorem swept_job_safe (reg : Registry) (id : String) (d : HookEvent)
    (h : regGet reg id = none) :
    hookSys reg id d = (reg, false) ∧
    worker_start none = none ∧
    cancel_download reg id = (reg, none) := by
  refine ⟨?_, rfl, ?_⟩
  · unfold hookSys; rw [h]
  · unfold cancel_download; rw [h]

/-- C9 witness: the empty registry with an unknown id. -/
theorem swept_job_safe_witness :
    hookSys [] "gone" exBadEv = ([], false) ∧
    worker_start none = none ∧
    cancel_download [] "gone" = ([], none) :=
  swept_job_safe [] "gone" exBadEv rfl

/-- C10: the engine options and the result-bundling decision under
`download_type = "playlist"` are identical to those under `"auto"` (both
leave `noplaylist = False`); only `"single"` changes the configuration. -/
theorem playlist_auto_equivalent :
    (∀ quality, ydlOptsFor quality "playlist" = ydlOptsFor quality "auto") ∧
    (∀ info, shouldBundle info "playlist" = shouldBundle info "auto") ∧
    (∀ info, resultFilename info "playlist" = resultFilename info "auto") ∧
    noplaylistFor "playlist" = false ∧ noplaylistFor "auto" = false ∧
    noplaylistFor "single" = true :=
  ⟨fun _ => rfl, fun _ => rfl, fun _ => rfl, rfl, rfl, rfl⟩

end UniversalDownloader
